import Mathlib

/-!
Verification development for the submission-review / action-queue bot.

The durable music_submissions table (src/database.py) is modelled as a
List Submission kept in rowid (insertion) order; each database helper of
src/database.py that the claims touch is embedded as a pure function on that
list.  Timestamps are natural numbers, with 0 playing the role of the epoch
minimum string 1970-01-01 00:00:00 written by prioritize_submission (every
timestamp produced by datetime.utcnow() sorts strictly after it).
Handler-level control flow (the button callbacks of src/cogs/submissions.py,
the action-queue worker of src/cogs/panel_handler.py, the websocket broadcast
of src/web_server.py) is embedded as explicit state passing, with the outcome
of an external side effect (a chat-platform API call) supplied as a parameter
describing which exception, if any, the call raises.
-/

namespace LeClark

/-- Submission status values stored in the status column of
music_submissions (src/database.py). -/
inductive Status
  | pending
  | reviewing
  | reviewed
  deriving DecidableEq

/-- One row of the music_submissions table
(src/database.py, initialize_database). -/
structure Submission where
  subId : Nat
  guildId : Nat
  userId : Nat
  trackUrl : String
  status : Status
  submittedAt : Nat
  reviewerId : Option Nat
  submissionType : String
  deriving DecidableEq

/-- The WHERE clause shared by get_next_submission and
get_submission_queue_count (src/database.py):
guild_id = ? AND status = "pending" AND submission_type = ?. -/
def isPendingIn (g : Nat) (ty : String) (s : Submission) : Bool :=
  s.guildId == g && s.status == Status.pending && s.submissionType == ty

/-- ORDER BY submitted_at ASC LIMIT 1 over a list of rows: returns a row of
minimal submittedAt.  SQLite leaves the relative order of equal keys
unspecified; the model lets the earlier row win ties, and no theorem below
depends on the tie order. -/
def selectEarliest : List Submission → Option Submission
  | [] => none
  | s :: rest =>
    match selectEarliest rest with
    | none => some s
    | some t => if s.submittedAt ≤ t.submittedAt then some s else some t

/-- Embeds src/database.py get_next_submission: SELECT submission_id,
user_id, track_url FROM music_submissions WHERE guild_id = ? AND
status = "pending" AND submission_type = ? ORDER BY submitted_at ASC
LIMIT 1. -/
def get_next_submission (db : List Submission) (g : Nat) (ty : String) :
    Option Submission :=
  selectEarliest (db.filter (isPendingIn g ty))

/-- Embeds src/database.py update_submission_status: UPDATE music_submissions
SET status = ?, reviewer_id = ? WHERE submission_id = ?.  The UPDATE is
guarded only by the id, never by the current status. -/
def update_submission_status (db : List Submission) (sid : Nat)
    (st : Status) (reviewer : Option Nat) : List Submission :=
  db.map fun s =>
    if s.subId == sid then { s with status := st, reviewerId := reviewer }
    else s

/-- Embeds src/database.py clear_session_submissions: DELETE FROM
music_submissions WHERE guild_id = ? AND submission_type = ? AND
status != "reviewed". -/
def clear_session_submissions (db : List Submission) (g : Nat) (ty : String) :
    List Submission :=
  db.filter fun s =>
    !(s.guildId == g && s.submissionType == ty &&
      !(s.status == Status.reviewed))

/-- Embeds src/database.py prioritize_submission: UPDATE music_submissions
SET submitted_at = the epoch minimum WHERE submission_id = ?. -/
def prioritize_submission (db : List Submission) (sid : Nat) :
    List Submission :=
  db.map fun s => if s.subId == sid then { s with submittedAt := 0 } else s

/-- Embeds src/database.py get_user_submission_count: SELECT COUNT(*) FROM
music_submissions WHERE guild_id = ? AND user_id = ? AND
submission_type = ? (all statuses). -/
def get_user_submission_count (db : List Submission) (g u : Nat)
    (ty : String) : Nat :=
  (db.filter fun s =>
    s.guildId == g && s.userId == u && s.submissionType == ty).length

/-- Embeds src/database.py get_submission_queue_count with its default
status = "pending". -/
def get_submission_queue_count (db : List Submission) (g : Nat)
    (ty : String) : Nat :=
  (db.filter (isPendingIn g ty)).length

/-- The AUTOINCREMENT id handed to the next inserted row: one more than every
id already present in the table. -/
def nextSubmissionId (db : List Submission) : Nat :=
  (db.map Submission.subId).foldr Nat.max 0 + 1

/-- Embeds src/database.py add_submission: INSERT a fresh row with status
"pending" and submitted_at = now; returns cursor.lastrowid together with the
new table. -/
def add_submission (db : List Submission) (g u : Nat) (url : String)
    (ty : String) (now : Nat) : Nat × List Submission :=
  (nextSubmissionId db,
   db ++ [⟨nextSubmissionId db, g, u, url, Status.pending, now, none, ty⟩])

/-- Embeds src/cogs/submissions.py SubmissionViewOpen.play_queue (the Dequeue
operation): fetch the next pending submission; if none, tell the caller the
queue is empty and change nothing; otherwise mark the row "reviewing" with
the pressing moderator recorded as reviewer.  Returns the new table and the
ephemeral message sent when the queue is empty. -/
def play_queue (db : List Submission) (g : Nat) (reviewer : Nat) :
    List Submission × Option String :=
  match get_next_submission db g "regular" with
  | none => (db, some "The submission queue is empty!")
  | some s =>
    (update_submission_status db s.subId Status.reviewing (some reviewer),
     none)

/-- Embeds src/cogs/submissions.py ReviewItemView: the view (timeout = 18000
seconds, five hours) posted with each track under review.  The field stopped
records whether View.stop() has been called; on_timeout fires when the timer
expires, which it does unless the view was stopped first. -/
structure ReviewItemView where
  submissionId : Nat
  guildId : Nat
  stopped : Bool
  deriving DecidableEq

/-- In-process state touched by the review buttons: the submissions table and
the ephemeral per-guild regular_session_reviewed_count defaultdict of
SubmissionsCog. -/
structure CogState where
  db : List Submission
  counter : Nat → Nat

/-- Embeds src/cogs/submissions.py ReviewItemView.mark_reviewed (the Complete
operation): bump the session counter, set the row to "reviewed" with the
pressing moderator as reviewer, delete the review message.  The callback
never calls self.stop(), so the returned view still has its timer armed. -/
def mark_reviewed (st : CogState) (v : ReviewItemView) (moderator : Nat) :
    CogState × ReviewItemView :=
  ({ db := update_submission_status st.db v.submissionId Status.reviewed
        (some moderator),
     counter := fun x =>
       if x = v.guildId then st.counter v.guildId + 1 else st.counter x },
   v)

/-- Embeds src/cogs/submissions.py ReviewItemView.on_timeout: when the
five-hour timer expires the row is set back to "pending" with reviewer
cleared, unconditionally — update_submission_status does not check the
current status. -/
def on_timeout (db : List Submission) (v : ReviewItemView) :
    List Submission :=
  update_submission_status db v.submissionId Status.pending none

/-- Embeds the ingestion path of src/cogs/submissions.py
SubmissionsCog.on_message for an audio attachment while submissions are open
(the Ingest operation): insert the row, then, if this is the first-ever
submission of that author in the category (the COUNT over all statuses
equals 1 after the insert), rewrite its timestamp to the epoch minimum. -/
def ingest_regular (db : List Submission) (g u : Nat) (url : String)
    (now : Nat) : List Submission :=
  if get_user_submission_count (add_submission db g u url "regular" now).2
      g u "regular" == 1 then
    prioritize_submission (add_submission db g u url "regular" now).2
      (add_submission db g u url "regular" now).1
  else (add_submission db g u url "regular" now).2

/-- The SELECT of src/cogs/submissions.py reset_stuck_review (and of the
reset_stuck_review branch of the worker): the first row, in rowid order,
WHERE guild_id = ? AND status = "reviewing" AND submission_type = "regular"
LIMIT 1. -/
def find_stuck (db : List Submission) (g : Nat) : Option Submission :=
  db.find? fun x =>
    x.guildId == g && x.status == Status.reviewing &&
      x.submissionType == "regular"

/-- Embeds src/cogs/submissions.py SubmissionsCog.reset_stuck_review (the
ResetStuck operation): if a stuck row exists, force it back to "pending"
with reviewer cleared; otherwise report that nothing is stuck and change
nothing.  Neither the query nor the update looks at how long the row has
been in "reviewing". -/
def reset_stuck_review (db : List Submission) (g : Nat) : List Submission :=
  match find_stuck db g with
  | none => db
  | some s => update_submission_status db s.subId Status.pending none

/-- Per-guild state touched by the open/close buttons: the durable
submissions table, the ephemeral regular_session_reviewed_count defaultdict,
and the durable submission_status setting. -/
structure GuildState where
  db : List Submission
  counter : Nat → Nat
  statusSetting : Nat → String

/-- Embeds the state-relevant lines of src/cogs/submissions.py
SubmissionViewClosed.start_submissions (the OpenSession operation): zero the
ephemeral session counter of the guild and set the durable submission_status
to "open". -/
def start_submissions (st : GuildState) (g : Nat) : GuildState :=
  { st with
    counter := fun x => if x = g then 0 else st.counter x,
    statusSetting := fun x => if x = g then "open" else st.statusSetting x }

/-- Embeds the state-relevant lines of src/cogs/submissions.py
SubmissionViewOpen.stop_submissions (the CloseSession operation): read the
session counter for the closing report, purge the non-reviewed rows of the
category, and set the status to "closed".  The counter itself is not
written. -/
def stop_submissions (st : GuildState) (g : Nat) : GuildState × Nat :=
  ({ st with
     db := clear_session_submissions st.db g "regular",
     statusSetting := fun x =>
       if x = g then "closed" else st.statusSetting x },
   st.counter g)

/-- Exception classes relevant to the except clauses of the action-queue
worker: discord.Forbidden, ValueError, and everything else. -/
inductive PyExc
  | forbidden
  | valueError
  | otherError
  deriving DecidableEq

/-- The action strings dispatched by the worker. -/
inductive ActionKind
  | moderateUser
  | sendMessage
  | manageStaff
  | resetStuckReview
  | unknownAction
  deriving DecidableEq

/-- One task of bot.action_queue together with the environment the worker
meets while dispatching it.  The booleans mirror the lookups of
src/cogs/panel_handler.py process_action_queue: whether bot.get_guild,
guild.get_member, bot.get_cog and the role/hierarchy checks succeed; effect
is the exception, if any, raised by the platform side effect the branch
performs (the ban/kick/warn/timeout call, a send, a role change, or an int()
conversion inside the try block of the branch). -/
structure ActionTask where
  taskId : Nat
  kind : ActionKind
  guildFound : Bool
  moderatorFound : Bool
  modCogFound : Bool
  targetProvided : Bool
  targetFound : Bool
  rolesConfigured : Bool
  roleFound : Bool
  hierarchyOk : Bool
  stuckFound : Bool
  effect : Option PyExc
  deriving DecidableEq

/-- How one dispatch branch of the worker ends: the branch either called
task_done() itself and returned (the early-return paths), or fell through to
the final task_done() at the end of the try block, or let an exception
escape to the outer except handler. -/
inductive BranchOutcome
  | earlyAck
  | fallThrough
  | raised (e : PyExc)
  deriving DecidableEq

/-- The moderate_user branch (panel_handler.py): a missing moderator or a
missing Moderation cog acknowledges and returns; a missing target only logs;
the inner try around the ban/kick/warn/timeout call catches only
discord.Forbidden, so a ValueError (for example from int() on a malformed
duration) or any other exception escapes the branch. -/
def runModerateUser (t : ActionTask) : BranchOutcome :=
  if !t.moderatorFound then BranchOutcome.earlyAck
  else if !t.modCogFound then BranchOutcome.earlyAck
  else if !t.targetFound then BranchOutcome.fallThrough
  else
    match t.effect with
    | none => BranchOutcome.fallThrough
    | some PyExc.forbidden => BranchOutcome.fallThrough
    | some e => BranchOutcome.raised e

/-- The send_message branch (panel_handler.py): its try catches
discord.Forbidden and ValueError; any other exception escapes. -/
def runSendMessage (t : ActionTask) : BranchOutcome :=
  match t.effect with
  | none => BranchOutcome.fallThrough
  | some PyExc.forbidden => BranchOutcome.fallThrough
  | some PyExc.valueError => BranchOutcome.fallThrough
  | some PyExc.otherError => BranchOutcome.raised PyExc.otherError

/-- The manage_staff branch (panel_handler.py): each precondition failure
acknowledges and returns; the surrounding try catches discord.Forbidden and
then Exception, so no exception escapes this branch. -/
def runManageStaff (t : ActionTask) : BranchOutcome :=
  if !t.moderatorFound then BranchOutcome.earlyAck
  else if !t.targetProvided then BranchOutcome.earlyAck
  else if !t.targetFound then BranchOutcome.earlyAck
  else if !t.rolesConfigured then BranchOutcome.earlyAck
  else if !t.roleFound then BranchOutcome.earlyAck
  else if !t.hierarchyOk then BranchOutcome.earlyAck
  else BranchOutcome.fallThrough

/-- The reset_stuck_review branch (panel_handler.py): finding no stuck row
acknowledges and returns; everything else sits inside try/except
Exception. -/
def runResetStuck (t : ActionTask) : BranchOutcome :=
  if !t.stuckFound then BranchOutcome.earlyAck
  else BranchOutcome.fallThrough

/-- Dispatch on the action string of the task (the if/elif chain of the
worker); an unknown action falls through to the final task_done(). -/
def runBranch (t : ActionTask) : BranchOutcome :=
  match t.kind with
  | ActionKind.moderateUser => runModerateUser t
  | ActionKind.sendMessage => runSendMessage t
  | ActionKind.manageStaff => runManageStaff t
  | ActionKind.resetStuckReview => runResetStuck t
  | ActionKind.unknownAction => BranchOutcome.fallThrough

/-- One iteration of src/cogs/panel_handler.py process_action_queue after a
task has been popped: returns how many times task_done() runs for that task.
An exception escaping the dispatch lands in the outer except Exception,
whose handler calls task_done() only when the queue still holds other tasks
(the guard not self.bot.action_queue.empty()); queueNonemptyAfter supplies
the value of that test.  The outer handler swallows the exception, so the
iteration itself never raises. -/
def process_action_queue_iter (t : ActionTask) (queueNonemptyAfter : Bool) :
    Nat :=
  if !t.guildFound then 1
  else
    match runBranch t with
    | BranchOutcome.earlyAck => 1
    | BranchOutcome.fallThrough => 1
    | BranchOutcome.raised _ => if queueNonemptyAfter then 1 else 0

/-- The single consumer draining bot.action_queue (an asyncio.Queue, FIFO):
each loop iteration pops the head and processes it; since the outer except
swallows every exception, the loop always reaches the next task.  Returns,
in execution order, the id of each task paired with the number of
task_done() calls it received. -/
def runWorker : List ActionTask → List (Nat × Nat)
  | [] => []
  | t :: rest =>
    (t.taskId, process_action_queue_iter t (!rest.isEmpty)) :: runWorker rest

/-- One live websocket connection of the subscriber set of a guild, together
with the behaviour of its send call: sendFails says whether ws_conn.send
raises for this connection. -/
structure WsConn where
  cid : Nat
  sendFails : Bool
  deriving DecidableEq

/-- The raw ws_conn.send(message_json) call: raises iff the connection is
broken. -/
def wsSend (c : WsConn) : Except String Unit :=
  if c.sendFails then Except.error "send failed" else Except.ok ()

/-- Embeds the loop body of src/web_server.py WebSocketManager.broadcast:
iterate over a snapshot of the connection set; each send is wrapped in
try/except Exception: pass, so a failure is recorded and the loop moves on.
The result type is Except so that an exception escaping the loop would show
up as an error value; the list records, in order, each connection id with
whether its send succeeded. -/
def broadcast : List WsConn → Except String (List (Nat × Bool))
  | [] => Except.ok []
  | c :: rest =>
    match wsSend c with
    | Except.ok _ =>
      match broadcast rest with
      | Except.ok l => Except.ok ((c.cid, true) :: l)
      | Except.error e => Except.error e
    | Except.error _ =>
      match broadcast rest with
      | Except.ok l => Except.ok ((c.cid, false) :: l)
      | Except.error e => Except.error e

/-- One row of the widget_tokens table (token TEXT PRIMARY KEY, guild_id
INTEGER NOT NULL UNIQUE). -/
structure TokenRow where
  token : String
  guildId : Nat
  deriving DecidableEq

/-- Embeds src/database.py get_or_create_widget_token: SELECT the token of
the guild; if present return it and leave the table alone, otherwise INSERT
a freshly generated token (secrets.token_urlsafe(32), supplied here as the
parameter freshToken) and return it. -/
def get_or_create_widget_token (tbl : List TokenRow) (g : Nat)
    (freshToken : String) : String × List TokenRow :=
  match tbl.find? (fun r => r.guildId == g) with
  | some r => (r.token, tbl)
  | none => (freshToken, tbl ++ [⟨freshToken, g⟩])

/-- Concrete one-row queue used to evaluate the C1 trace. -/
def C1db : List Submission :=
  [⟨1, 7, 5, "track", Status.pending, 3, none, "regular"⟩]

/-- The C1 trace after Dequeue: moderator 9 starts reviewing row 1. -/
def C1afterDequeue : List Submission := (play_queue C1db 7 9).1

/-- The view spawned by play_queue for row 1 of guild 7, timer armed. -/
def C1view : ReviewItemView := ⟨1, 7, false⟩

/-- The C1 trace after Complete: moderator 9 presses Mark as Reviewed. -/
def C1afterComplete : CogState × ReviewItemView :=
  mark_reviewed ⟨C1afterDequeue, fun _ => 0⟩ C1view 9

/-- A moderate_user task whose dispatch raises ValueError (for example from
int() on a malformed duration field), which the branch does not catch. -/
def C2task : ActionTask :=
  { taskId := 1, kind := ActionKind.moderateUser, guildFound := true,
    moderatorFound := true, modCogFound := true, targetProvided := true,
    targetFound := true, rolesConfigured := true, roleFound := true,
    hierarchyOk := true, stuckFound := true,
    effect := some PyExc.valueError }

/-- Concrete two-row pending queue used by the C4 witness. -/
def C4db : List Submission :=
  [⟨1, 7, 5, "u1", Status.pending, 3, none, "regular"⟩,
   ⟨2, 7, 6, "u2", Status.pending, 4, none, "regular"⟩]

/-- Concrete queue used by the C5 witness: one earlier pending submission of
a returning submitter. -/
def C5db : List Submission :=
  [⟨1, 7, 5, "earlier", Status.pending, 4, none, "regular"⟩]

/-- Concrete table used by the C6 witness: one row in each status. -/
def C6db : List Submission :=
  [⟨1, 7, 5, "a", Status.reviewed, 3, some 9, "regular"⟩,
   ⟨2, 7, 6, "b", Status.pending, 4, none, "regular"⟩,
   ⟨3, 7, 6, "c", Status.reviewing, 5, some 9, "regular"⟩]

/-- Concrete guild state with a leftover session counter of 5 for guild 7. -/
def C7state : GuildState :=
  { db := [], counter := fun x => if x = 7 then 5 else 0,
    statusSetting := fun _ => "open" }

/-- Concrete table used by the C8 witness: one stuck row. -/
def C8db : List Submission :=
  [⟨1, 7, 5, "stuck", Status.reviewing, 3, some 9, "regular"⟩]

/-- A row selected by selectEarliest belongs to the list. -/
theorem selectEarliest_mem {l : List Submission} {s : Submission}
    (h : selectEarliest l = some s) : s ∈ l := by
  induction l with
  | nil => simp [selectEarliest] at h
  | cons a rest ih =>
    rw [selectEarliest] at h
    rcases hrest : selectEarliest rest with _ | t <;> rw [hrest] at h
    · injection h with h
      subst h
      exact List.mem_cons_self a rest
    · dsimp only at h
      by_cases hle : a.submittedAt ≤ t.submittedAt
      · rw [if_pos hle] at h
        injection h with h
        subst h
        exact List.mem_cons_self a rest
      · rw [if_neg hle] at h
        injection h with h
        subst h
        exact List.mem_cons_of_mem a (ih hrest)

/-- selectEarliest returns none only on the empty list. -/
theorem selectEarliest_eq_none {l : List Submission}
    (h : selectEarliest l = none) : l = [] := by
  cases l with
  | nil => rfl
  | cons a rest =>
    rw [selectEarliest] at h
    rcases hrest : selectEarliest rest with _ | t <;> rw [hrest] at h
    · exact absurd h (by simp)
    · by_cases hle : a.submittedAt ≤ t.submittedAt <;> simp [hle] at h

/-- The row selected by selectEarliest has minimal timestamp. -/
theorem selectEarliest_min :
    ∀ {l : List Submission} {s : Submission}, selectEarliest l = some s →
      ∀ t ∈ l, s.submittedAt ≤ t.submittedAt := by
  intro l
  induction l with
  | nil => intro s h; simp [selectEarliest] at h
  | cons a rest ih =>
    intro s h
    rw [selectEarliest] at h
    rcases hrest : selectEarliest rest with _ | u <;> rw [hrest] at h
    · have hr : rest = [] := selectEarliest_eq_none hrest
      subst hr
      injection h with h
      subst h
      intro t ht
      rcases List.mem_cons.mp ht with h1 | h2
      · subst h1; exact Nat.le_refl _
      · cases h2
    · dsimp only at h
      by_cases hle : a.submittedAt ≤ u.submittedAt
      · rw [if_pos hle] at h
        injection h with h
        subst h
        intro t ht
        rcases List.mem_cons.mp ht with h1 | h2
        · subst h1; exact Nat.le_refl _
        · exact Nat.le_trans hle (ih hrest t h2)
      · rw [if_neg hle] at h
        injection h with h
        subst h
        intro t ht
        rcases List.mem_cons.mp ht with h1 | h2
        · subst h1; exact Nat.le_of_lt (Nat.lt_of_not_le hle)
        · exact ih hrest t h2

/-- Appending a row with strictly smallest timestamp makes it the selected
row. -/
theorem selectEarliest_append_min (l : List Submission) (x : Submission)
    (h : ∀ t ∈ l, x.submittedAt < t.submittedAt) :
    selectEarliest (l ++ [x]) = some x := by
  induction l with
  | nil => rfl
  | cons a rest ih =>
    have hx : selectEarliest (rest ++ [x]) = some x :=
      ih fun t ht => h t (List.mem_cons_of_mem a ht)
    rw [List.cons_append, selectEarliest, hx]
    dsimp only
    rw [if_neg (Nat.not_le.mpr (h a (List.mem_cons_self a rest)))]

/-- Every row of the updated table carrying the updated id has the new
status and reviewer. -/
theorem update_submission_status_subId (db : List Submission) (sid : Nat)
    (st : Status) (r : Option Nat) :
    ∀ t ∈ update_submission_status db sid st r,
      t.subId = sid → t.status = st ∧ t.reviewerId = r := by
  intro t ht hid
  rw [update_submission_status] at ht
  rcases List.mem_map.mp ht with ⟨x, hx, hfx⟩
  by_cases hxs : x.subId = sid
  · rw [if_pos (by simp [hxs])] at hfx
    subst hfx
    exact ⟨rfl, rfl⟩
  · rw [if_neg (by simp [hxs])] at hfx
    subst hfx
    exact absurd hid hxs

/-- Every member of a list of naturals is bounded by the foldr of max. -/
theorem le_foldr_max {l : List Nat} {x : Nat} (h : x ∈ l) :
    x ≤ l.foldr Nat.max 0 := by
  induction l with
  | nil => cases h
  | cons a rest ih =>
    rcases List.mem_cons.mp h with h1 | h2
    · subst h1; exact Nat.le_max_left _ _
    · exact Nat.le_trans (ih h2) (Nat.le_max_right _ _)

/-- Mapping a function that fixes every member of a list is the identity. -/
theorem map_id_of_mem {l : List Submission} {f : Submission → Submission}
    (h : ∀ s ∈ l, f s = s) : l.map f = l := by
  induction l with
  | nil => rfl
  | cons a rest ih =>
    rw [List.map_cons, h a (List.mem_cons_self a rest),
      ih fun s hs => h s (List.mem_cons_of_mem a hs)]

/-- Prioritizing a freshly appended row rewrites only that row. -/
theorem prioritize_fresh (db : List Submission) (x : Submission)
    (hfresh : ∀ s ∈ db, s.subId ≠ x.subId) :
    prioritize_submission (db ++ [x]) x.subId =
      db ++ [{ x with submittedAt := 0 }] := by
  rw [prioritize_submission, List.map_append]
  congr 1
  · exact map_id_of_mem fun s hs => by
      rw [if_neg (by simp [hfresh s hs])]
  · simp

/-- Claim C6: CloseSession deletes every submission of that guild/category
whose status is not "reviewed" and leaves every "reviewed" submission
unchanged — the list of reviewed rows (hence its count) is exactly preserved,
and no pending or reviewing row of that guild/category remains. -/
theorem C6_close_session_frame (db : List Submission) (g : Nat)
    (ty : String) :
    (clear_session_submissions db g ty).filter
        (fun s => s.status == Status.reviewed) =
      db.filter (fun s => s.status == Status.reviewed) ∧
    ((clear_session_submissions db g ty).filter
        (fun s => s.status == Status.reviewed)).length =
      (db.filter (fun s => s.status == Status.reviewed)).length ∧
    ∀ t ∈ clear_session_submissions db g ty,
      t.guildId = g → t.submissionType = ty → t.status = Status.reviewed := by
  have hfil : (clear_session_submissions db g ty).filter
      (fun s => s.status == Status.reviewed) =
      db.filter (fun s => s.status == Status.reviewed) := by
    unfold clear_session_submissions
    rw [List.filter_filter]
    apply List.filter_congr
    intro x hx
    cases hst : x.status == Status.reviewed <;> simp [hst]
  refine ⟨hfil, by rw [hfil], ?_⟩
  intro t ht h1 h2
  unfold clear_session_submissions at ht
  have hp := (List.mem_filter.mp ht).2
  simp [h1, h2] at hp
  exact hp

/-- Witness for C6 at a concrete table: the reviewed row survives
CloseSession untouched. -/
theorem C6_close_session_frame_witness :
    (⟨1, 7, 5, "a", Status.reviewed, 3, some 9, "regular"⟩ :
      Submission).status = Status.reviewed :=
  (C6_close_session_frame C6db 7 "regular").2.2
    ⟨1, 7, 5, "a", Status.reviewed, 3, some 9, "regular"⟩ (by decide) rfl rfl

/-- Counterexample to claim C7: with a leftover session counter of 5 for
guild 7, CloseSession (stop_submissions) completes and the counter still
holds 5, not zero — the close handler reads the counter but never resets or
discards it. -/
theorem C7_close_keeps_counter_counterexample :
    (stop_submissions C7state 7).1.counter 7 ≠ 0 := by decide

/-- Claim C7 as amended: OpenSession (start_submissions) zeroes the session
counter of the guild, while CloseSession (stop_submissions) leaves the
counter map entirely unchanged and merely reports the closing value; the
residual value persists until the next OpenSession. -/
theorem C7_counter_reset_amended (st : GuildState) (g : Nat) :
    (start_submissions st g).counter g = 0 ∧
    (stop_submissions st g).1.counter = st.counter ∧
    (stop_submissions st g).2 = st.counter g :=
  ⟨by simp [start_submissions], rfl, rfl⟩

/-- Claim C9: the broadcast loop attempts the send for every subscriber of
the snapshot, in order, regardless of which individual sends fail, and never
lets an exception escape (the result is always ok, never error). -/
theorem C9_broadcast_best_effort (conns : List WsConn) :
    broadcast conns =
      Except.ok (conns.map fun c => (c.cid, !c.sendFails)) := by
  induction conns with
  | nil => rfl
  | cons c rest ih =>
    rw [broadcast, ih]
    cases hc : c.sendFails <;> simp [wsSend, hc]

/-- Claim C10: get_or_create_widget_token is idempotent per guild — a second
call returns the same token and leaves the table exactly as the first call
left it, and a call for a guild that already has a token inserts nothing. -/
theorem C10_widget_token_idempotent (tbl : List TokenRow) (g : Nat)
    (f1 f2 : String) :
    (get_or_create_widget_token
        (get_or_create_widget_token tbl g f1).2 g f2).1 =
      (get_or_create_widget_token tbl g f1).1 ∧
    (get_or_create_widget_token
        (get_or_create_widget_token tbl g f1).2 g f2).2 =
      (get_or_create_widget_token tbl g f1).2 ∧
    ((tbl.find? (fun r => r.guildId == g)).isSome →
      (get_or_create_widget_token tbl g f1).2 = tbl) := by
  rcases hfind : tbl.find? (fun r => r.guildId == g) with _ | r
  · have hsnd : (get_or_create_widget_token tbl g f1).2 =
        tbl ++ [⟨f1, g⟩] := by
      unfold get_or_create_widget_token
      rw [hfind]
    have hfind2 : (tbl ++ [⟨f1, g⟩] : List TokenRow).find?
        (fun r => r.guildId == g) = some ⟨f1, g⟩ := by
      rw [List.find?_append, hfind]
      simp
    refine ⟨?_, ?_, ?_⟩
    · rw [hsnd]
      unfold get_or_create_widget_token
      rw [hfind, hfind2]
    · rw [hsnd]
      unfold get_or_create_widget_token
      rw [hfind2]
    · intro hin
      rw [hfind] at hin
      simp at hin
  · have h1 : get_or_create_widget_token tbl g f1 = (r.token, tbl) := by
      unfold get_or_create_widget_token
      rw [hfind]
    refine ⟨?_, ?_, fun _ => by rw [h1]⟩ <;> rw [h1] <;>
      unfold get_or_create_widget_token <;> rw [hfind]

/-- Witness for C10 at a concrete table: a guild that already owns a token
gets no new row. -/
theorem C10_widget_token_idempotent_witness :
    (get_or_create_widget_token [⟨"tok", 7⟩] 7 "fresh1").2 = [⟨"tok", 7⟩] :=
  (C10_widget_token_idempotent [⟨"tok", 7⟩] 7 "fresh1" "fresh2").2.2
    (by decide)

/-- Claim C4: when the queue holds a pending submission, Dequeue
(play_queue) picks a pending row of the guild and category whose timestamp
is minimal among all such rows, transitions exactly the rows of that id to
"reviewing" with the caller recorded as reviewer, and sends no empty-queue
message; when no pending submission exists it leaves the table unchanged and
reports the empty queue to the caller as a user-facing message. -/
theorem C4_dequeue_earliest_or_empty (db : List Submission) (g r : Nat) :
    (∀ s, get_next_submission db g "regular" = some s →
      s ∈ db ∧ s.status = Status.pending ∧ s.guildId = g ∧
      s.submissionType = "regular" ∧
      (∀ t ∈ db, t.status = Status.pending → t.guildId = g →
        t.submissionType = "regular" → s.submittedAt ≤ t.submittedAt) ∧
      (play_queue db g r).1 =
        update_submission_status db s.subId Status.reviewing (some r) ∧
      (∀ t ∈ (play_queue db g r).1, t.subId = s.subId →
        t.status = Status.reviewing ∧ t.reviewerId = some r) ∧
      (play_queue db g r).2 = none) ∧
    (get_next_submission db g "regular" = none →
      (play_queue db g r).1 = db ∧
      (play_queue db g r).2 = some "The submission queue is empty!") := by
  constructor
  · intro s hs
    have hs2 : selectEarliest (db.filter (isPendingIn g "regular")) =
        some s := hs
    have hmem := selectEarliest_mem hs2
    have hmemdb := (List.mem_filter.mp hmem).1
    have hpred := (List.mem_filter.mp hmem).2
    rw [isPendingIn] at hpred
    simp only [Bool.and_eq_true, beq_iff_eq] at hpred
    obtain ⟨⟨hg, hst⟩, hty⟩ := hpred
    have hmin : ∀ t ∈ db, t.status = Status.pending → t.guildId = g →
        t.submissionType = "regular" → s.submittedAt ≤ t.submittedAt := by
      intro t ht h1 h2 h3
      exact selectEarliest_min hs2 t
        (List.mem_filter.mpr ⟨ht, by simp [isPendingIn, h1, h2, h3]⟩)
    have hplay : play_queue db g r =
        (update_submission_status db s.subId Status.reviewing (some r),
         none) := by
      unfold play_queue
      rw [hs]
    exact ⟨hmemdb, hst, hg, hty, hmin, by rw [hplay],
      by rw [hplay]
         exact update_submission_status_subId db s.subId Status.reviewing
           (some r),
      by rw [hplay]⟩
  · intro h
    have hplay : play_queue db g r =
        (db, some "The submission queue is empty!") := by
      unfold play_queue
      rw [h]
    exact ⟨by rw [hplay], by rw [hplay]⟩

/-- Witness for C4 at a concrete two-row queue: Dequeue claims row 1, the
earlier of the two pending rows. -/
theorem C4_dequeue_earliest_or_empty_witness :
    (play_queue C4db 7 9).1 =
      update_submission_status C4db 1 Status.reviewing (some 9) :=
  (((C4_dequeue_earliest_or_empty C4db 7 9).1
    ⟨1, 7, 5, "u1", Status.pending, 3, none, "regular"⟩
    (by decide)).2.2.2.2.2.1)

/-- Claim C5: an Ingest that is the first-ever submission of the submitter
in the category appends the row and rewrites its timestamp to the epoch
minimum, so that, as long as every pending row already queued carries a real
(positive) timestamp — as every submission of a non-first-time submitter
does — a Dequeue immediately afterwards returns the new submission ahead of
all of them. -/
theorem C5_first_submission_priority (db : List Submission) (g u : Nat)
    (url : String) (now : Nat)
    (hfirst : get_user_submission_count db g u "regular" = 0)
    (hold : ∀ t ∈ db, isPendingIn g "regular" t = true →
      0 < t.submittedAt) :
    ingest_regular db g u url now =
      db ++ [⟨nextSubmissionId db, g, u, url, Status.pending, 0, none,
        "regular"⟩] ∧
    get_next_submission (ingest_regular db g u url now) g "regular" =
      some ⟨nextSubmissionId db, g, u, url, Status.pending, 0, none,
        "regular"⟩ := by
  have hfresh : ∀ s ∈ db, s.subId ≠ nextSubmissionId db := by
    intro s hs
    have hle : s.subId ≤ (db.map Submission.subId).foldr Nat.max 0 :=
      le_foldr_max (List.mem_map_of_mem Submission.subId hs)
    rw [nextSubmissionId]
    omega
  have hcount : get_user_submission_count
      (db ++ [⟨nextSubmissionId db, g, u, url, Status.pending, now, none,
        "regular"⟩]) g u "regular" = 1 := by
    rw [get_user_submission_count, List.filter_append]
    rw [get_user_submission_count] at hfirst
    rw [List.length_append, hfirst]
    simp
  have hmain : ingest_regular db g u url now =
      db ++ [⟨nextSubmissionId db, g, u, url, Status.pending, 0, none,
        "regular"⟩] := by
    unfold ingest_regular
    rw [show (add_submission db g u url "regular" now).2 =
        db ++ [⟨nextSubmissionId db, g, u, url, Status.pending, now, none,
          "regular"⟩] from rfl,
      show (add_submission db g u url "regular" now).1 =
        nextSubmissionId db from rfl,
      hcount]
    simp only [beq_self_eq_true, if_true]
    exact prioritize_fresh db
      ⟨nextSubmissionId db, g, u, url, Status.pending, now, none, "regular"⟩
      hfresh
  refine ⟨hmain, ?_⟩
  rw [hmain]
  unfold get_next_submission
  rw [List.filter_append,
    show ([⟨nextSubmissionId db, g, u, url, Status.pending, 0, none,
      "regular"⟩] : List Submission).filter (isPendingIn g "regular") =
      [⟨nextSubmissionId db, g, u, url, Status.pending, 0, none,
        "regular"⟩] from by simp [isPendingIn]]
  apply selectEarliest_append_min
  intro t ht
  exact hold t (List.mem_filter.mp ht).1 (List.mem_filter.mp ht).2

/-- Witness for C5 at a concrete queue: the first-time submission of user 6
ingested at time 9 jumps ahead of the pending time-4 submission of
returning user 5. -/
theorem C5_first_submission_priority_witness :
    get_next_submission (ingest_regular C5db 7 6 "first" 9) 7 "regular" =
      some ⟨2, 7, 6, "first", Status.pending, 0, none, "regular"⟩ :=
  (C5_first_submission_priority C5db 7 6 "first" 9 (by decide)
    (by decide)).2

/-- Claim C8: for a submission in "reviewing" status — unique in its
guild/category, as the spec invariant of at most one concurrent review
guarantees — ResetStuck (reset_stuck_review) turns every row of that id into
status "pending" with the reviewer field cleared.  Neither the selecting
query nor the update consults any clock, so the result is independent of how
long the row has been stuck. -/
theorem C8_reset_stuck_yields_pending (db : List Submission) (g : Nat)
    (s : Submission) (hs : s ∈ db) (hrev : s.status = Status.reviewing)
    (hg : s.guildId = g) (hty : s.submissionType = "regular")
    (huniq : ∀ t ∈ db, t.guildId = g → t.status = Status.reviewing →
      t.submissionType = "regular" → t.subId = s.subId) :
    ∀ t ∈ reset_stuck_review db g, t.subId = s.subId →
      t.status = Status.pending ∧ t.reviewerId = none := by
  rcases hfind : find_stuck db g with _ | r
  · exfalso
    unfold find_stuck at hfind
    rw [List.find?_eq_none] at hfind
    exact hfind s hs (by simp [hg, hrev, hty])
  · have hfind2 : db.find? (fun x =>
        x.guildId == g && x.status == Status.reviewing &&
          x.submissionType == "regular") = some r := hfind
    have hpred := List.find?_some hfind2
    have hmem := List.mem_of_find?_eq_some hfind2
    simp only [Bool.and_eq_true, beq_iff_eq] at hpred
    have hrid : r.subId = s.subId :=
      huniq r hmem hpred.1.1 hpred.1.2 hpred.2
    intro t ht htid
    unfold reset_stuck_review at ht
    rw [hfind] at ht
    exact update_submission_status_subId db r.subId Status.pending none t ht
      (htid.trans hrid.symm)

/-- Witness for C8 at a concrete table: the single stuck row comes back as
pending with no reviewer. -/
theorem C8_reset_stuck_yields_pending_witness :
    (⟨1, 7, 5, "stuck", Status.pending, 3, none, "regular"⟩ :
      Submission).status = Status.pending ∧
    (⟨1, 7, 5, "stuck", Status.pending, 3, none, "regular"⟩ :
      Submission).reviewerId = none :=
  C8_reset_stuck_yields_pending C8db 7
    ⟨1, 7, 5, "stuck", Status.reviewing, 3, some 9, "regular"⟩
    (by decide) rfl rfl rfl (by decide)
    ⟨1, 7, 5, "stuck", Status.pending, 3, none, "regular"⟩ (by decide) rfl

/-- Claim C1 is violated by the code, evaluated on the concrete trace
Dequeue, Complete, timer expiry: after Complete the row is "reviewed", but
mark_reviewed leaves the view unstopped (it never calls self.stop()), so the
five-hour timer still fires; on_timeout then unconditionally rewrites the
row to "pending" — the guard-free UPDATE of update_submission_status takes
it out of the terminal state — and the next Dequeue returns the already
completed submission again. -/
theorem C1_timeout_reverts_reviewed :
    C1afterComplete.1.db =
      [⟨1, 7, 5, "track", Status.reviewed, 3, some 9, "regular"⟩] ∧
    C1afterComplete.2.stopped = false ∧
    on_timeout C1afterComplete.1.db C1afterComplete.2 =
      [⟨1, 7, 5, "track", Status.pending, 3, none, "regular"⟩] ∧
    get_next_submission
        (on_timeout C1afterComplete.1.db C1afterComplete.2) 7 "regular" =
      some ⟨1, 7, 5, "track", Status.pending, 3, none, "regular"⟩ := by
  decide

/-- Claim C2 is violated by the code: a moderate_user task whose dispatch
raises an exception the branch does not catch (here a ValueError, which the
inner except clause for discord.Forbidden misses) reaches the outer except
handler, and that handler calls task_done() only when the queue still holds
other tasks; with the queue empty after the pop the task receives zero
task_done() calls — it is never acknowledged — as both the single iteration
and a full worker pass over the one-task queue evaluate. -/
theorem C2_unacked_on_uncaught_error :
    process_action_queue_iter C2task false = 0 ∧
    runWorker [C2task] = [(1, 0)] := by
  decide

/-- Claim C3: the single consumer executes every enqueued task in exactly
FIFO enqueue order — the execution trace of runWorker lists the task ids in
the order of the input queue — for every queue contents, including queues
whose tasks raise during dispatch (the effect field), since the outer except
swallows the exception and the next iteration pops the next task. -/
theorem C3_fifo_order_despite_errors (ts : List ActionTask) :
    (runWorker ts).map Prod.fst = ts.map ActionTask.taskId := by
  induction ts with
  | nil => rfl
  | cons t rest ih => simp [runWorker, ih]

end LeClark
